import Mathlib

/-!
Shallow embedding of the StockAnalysis acquisition-and-classification pipeline
(`src/data_analysis.py`, `src/data_manager.py`) and proofs of the spec claims.

Conventions of the embedding:
* Prices and regression arithmetic are exact reals; a missing observation
  (`NaN` in a pandas series) is `none` in a `List (Option ℝ)`.
* `sklearn.LinearRegression.fit` validates its inputs (`check_array`) and
  raises `ValueError` on an empty sample or on any non-finite entry; both are
  modeled as a `FitError` result.  On one sample the centered least-squares
  system is degenerate and `scipy.linalg.lstsq` returns the minimum-norm
  solution, i.e. slope `0` and intercept equal to the sample.
* `sklearn.metrics.r2_score` returns `NaN` (modeled `none`) on fewer than two
  samples; with a zero total sum of squares it returns `1.0` when the residual
  sum of squares is also zero and `0.0` otherwise.
-/

namespace StockAnalysis

/-- The `ValueError` raised by `sklearn`'s input validation inside
`LinearRegression.fit`: either the sample is empty, or `np.log` produced a
non-finite value (`-inf` for price `0`, `NaN` for a negative price). -/
inductive FitError where
  | emptyInput
  | nonFiniteInput
deriving DecidableEq

/-- The two return statements of `determine_exp_trend`:
`(True, r2, predicted_prices)` or `(False, None, None)`. -/
inductive TrendOut where
  | exponential (r2 : ℝ) (predicted : List ℝ)
  | notExponential

/-- `FileNotFoundError` when opening the cache file for reading. -/
inductive CacheError where
  | missing
deriving DecidableEq

/-- Issuer metadata dictionary (`ticker.get_info()`); only passed through. -/
def SymbolInfo : Type := List (String × String)

/-- Dataclass `SymbolData` of `data_manager.py`: info dict, historical close
series, and the trend-fit fields `r2` and `cagr` (defaults `0.`). -/
structure SymbolData where
  symbol_info : SymbolInfo
  symbol_hist_data : List (Option ℝ)
  r2 : ℝ
  cagr : ℝ

/-- `np.log(data.values)` on the cleaned price list. -/
noncomputable def logPrices (ps : List ℝ) : List ℝ := ps.map Real.log

/-- `np.arange(len(data))`, cast to the reals. -/
def timeIndex (n : ℕ) : List ℝ := (List.range n).map (fun (i : ℕ) => (i : ℝ))

/-- Arithmetic mean of a list (`np.average`); `0` on the empty list. -/
noncomputable def meanOf (l : List ℝ) : ℝ := l.sum / l.length

/-- Slope fitted by `LinearRegression` on `(timeIndex, ys)`: the least-squares
solution on the centered data.  `sxx = 0` only for fewer than two samples,
where `lstsq` returns the minimum-norm solution `0`. -/
noncomputable def olsSlope (ys : List ℝ) : ℝ :=
  let ts := timeIndex ys.length
  let tbar := meanOf ts
  let ybar := meanOf ys
  let sxx := (ts.map (fun t => (t - tbar) ^ 2)).sum
  let sxy := ((ts.zip ys).map (fun p => (p.1 - tbar) * (p.2 - ybar))).sum
  if sxx = 0 then 0 else sxy / sxx

/-- Intercept fitted by `LinearRegression`: `ybar - slope * tbar`. -/
noncomputable def olsIntercept (ys : List ℝ) : ℝ :=
  meanOf ys - olsSlope ys * meanOf (timeIndex ys.length)

/-- `model.predict(time_index)`: the fitted line at each time index. -/
noncomputable def olsPred (ys : List ℝ) : List ℝ :=
  (timeIndex ys.length).map (fun t => olsSlope ys * t + olsIntercept ys)

/-- Residual sum of squares between `ys` and the fitted predictions. -/
noncomputable def ssRes (ys : List ℝ) : ℝ :=
  ((ys.zip (olsPred ys)).map (fun p => (p.1 - p.2) ^ 2)).sum

/-- Total sum of squares of `ys` against its mean. -/
noncomputable def ssTot (ys : List ℝ) : ℝ :=
  (ys.map (fun y => (y - meanOf ys) ^ 2)).sum

open scoped Classical in
/-- The score computed by `sklearn.metrics.r2_score` for at least two samples:
`1 - ssRes/ssTot` when both are nonzero, `0.0` for a nonzero residual over a
zero denominator, and `1.0` whenever the residual is zero. -/
noncomputable def olsR2 (ys : List ℝ) : ℝ :=
  if ssRes ys ≠ 0 ∧ ssTot ys ≠ 0 then 1 - ssRes ys / ssTot ys
  else if ssRes ys ≠ 0 ∧ ssTot ys = 0 then 0
  else 1

/-- `r2_score(log_prices, predicted_log_prices)`: `NaN` (here `none`) on fewer
than two samples, else `olsR2`. -/
noncomputable def r2score (ys : List ℝ) : Option ℝ :=
  if ys.length < 2 then none else some (olsR2 ys)

open scoped Classical in
/-- `determine_exp_trend(data, r2_threshold)` of `data_analysis.py`.
`data.dropna()` is `reduceOption`; an empty cleaned series makes `fit` raise,
and a price `≤ 0` makes `np.log` non-finite so that `fit` raises as well.
Otherwise the log-linear fit is scored and the series is classified
exponential exactly on `r2 >= r2_threshold and slope > 0` (a `NaN` score from
fewer than two samples fails the comparison). -/
noncomputable def determine_exp_trend (data : List (Option ℝ)) (r2_threshold : ℝ) :
    Except FitError TrendOut :=
  let ps := data.reduceOption
  if ps.isEmpty then Except.error FitError.emptyInput
  else if ¬ (∀ p ∈ ps, 0 < p) then Except.error FitError.nonFiniteInput
  else
    let ys := logPrices ps
    match r2score ys with
    | none => Except.ok TrendOut.notExponential
    | some r2 =>
      if r2_threshold ≤ r2 ∧ 0 < olsSlope ys then
        Except.ok (TrendOut.exponential r2 ((olsPred ys).map Real.exp))
      else Except.ok TrendOut.notExponential

/-- `determine_cagr(data, years)`: `(final/initial)**(1/years) - 1` on the raw
series' first and last entries (`iloc[0]`, `iloc[-1]`).  In the source a
missing first or last observation would propagate `NaN` through the float
arithmetic; the embedding totalizes those accesses with `0` and every claim
about `cagr` constrains fully observed endpoints. -/
noncomputable def determine_cagr (data : List (Option ℝ)) (years : ℝ) : ℝ :=
  let initial_price := (data.head?.bind id).getD 0
  let final_price := (data.getLast?.bind id).getD 0
  (final_price / initial_price) ^ (1 / years) - 1

/-- Modelled from the spec: `global_constants.py` (defining `HIST_DATA_YEARS`)
is not in `src/`; §4.2 of the spec fixes the lookback window default to 5
years. -/
def HIST_DATA_YEARS : ℝ := 5

/-- One iteration of the loop in `analyse_symbols`: run the trend fit with the
default threshold `0.8` and, only when the series is classified exponential,
overwrite the record's `r2` and `cagr` (the chart written by `save_plot_img`
touches no record field).  An exception from the fit propagates. -/
noncomputable def analyseOne (sd : SymbolData) : Except FitError SymbolData :=
  match determine_exp_trend sd.symbol_hist_data 0.8 with
  | Except.error e => Except.error e
  | Except.ok (TrendOut.exponential r2v _predicted) =>
    Except.ok { sd with r2 := r2v,
                        cagr := determine_cagr sd.symbol_hist_data HIST_DATA_YEARS }
  | Except.ok TrendOut.notExponential => Except.ok sd

/-- `analyse_symbols(symbol_data_list)`: the per-record loop; the first
uncaught fit exception aborts the pass. -/
noncomputable def analyse_symbols : List SymbolData → Except FitError (List SymbolData)
  | [] => Except.ok []
  | sd :: rest =>
    match analyseOne sd with
    | Except.error e => Except.error e
    | Except.ok sd' =>
      match analyse_symbols rest with
      | Except.error e => Except.error e
      | Except.ok rest' => Except.ok (sd' :: rest')

/-- `cache_symbol_data`: `pickle.dump` of the whole batch to the fixed cache
file, modeled as the cache artifact holding the batch value; any prior content
is overwritten.  Byte-level pickle fidelity is external library behavior. -/
def cache_symbol_data (symbol_data_list : List SymbolData)
    (_cache : Option (List SymbolData)) : Option (List SymbolData) :=
  some symbol_data_list

/-- `load_cached_symbol_data`: `pickle.load` from the fixed cache file; a
missing artifact raises. -/
def load_cached_symbol_data (cache : Option (List SymbolData)) :
    Except CacheError (List SymbolData) :=
  match cache with
  | some l => Except.ok l
  | none => Except.error CacheError.missing

/-- The per-candidate outcome of `validate_and_get_info` followed by
`get_historical_close_data` inside the loop of `get_and_cache_data`: `none`
when validation returned `(False, None)` or the fetch returned `None`, else
the freshly built `SymbolData(symbol_info, hist_data, 0., 0.)`. -/
def usableRecord (validate : String → Option SymbolInfo)
    (fetchHist : String → Option (List (Option ℝ))) (s : String) :
    Option SymbolData :=
  match validate s with
  | none => none
  | some info =>
    match fetchHist s with
    | none => none
    | some hist => some ⟨info, hist, 0, 0⟩

/-- The `for symbol in symbols` loop of `get_and_cache_data`: `i` counts the
successes so far and `if i == num_symbols: break` is checked at the top of
each iteration; a validation or fetch failure skips to the next candidate. -/
def scanLoop (validate : String → Option SymbolInfo)
    (fetchHist : String → Option (List (Option ℝ))) :
    List String → ℕ → ℕ → List SymbolData
  | [], _, _ => []
  | s :: rest, i, num_symbols =>
    if i = num_symbols then []
    else
      match validate s with
      | some info =>
        match fetchHist s with
        | some hist =>
          ⟨info, hist, 0, 0⟩ :: scanLoop validate fetchHist rest (i + 1) num_symbols
        | none => scanLoop validate fetchHist rest i num_symbols
      | none => scanLoop validate fetchHist rest i num_symbols

/-- `get_and_cache_data(num_symbols)`: scan the candidate source (the Finnhub
symbol list and the Yahoo provider are oracle parameters), then persist the
accumulated batch; returns the batch and the updated cache artifact. -/
def get_and_cache_data (validate : String → Option SymbolInfo)
    (fetchHist : String → Option (List (Option ℝ))) (symbols : List String)
    (num_symbols : ℕ) (cache : Option (List SymbolData)) :
    List SymbolData × Option (List SymbolData) :=
  let symbol_data_list := scanLoop validate fetchHist symbols 0 num_symbols
  (symbol_data_list, cache_symbol_data symbol_data_list cache)

/-- `get_symbol_data(read_from_cache, num_symbols)`: read the whole batch from
the cache artifact, or run the acquisition scan and overwrite the cache. -/
def get_symbol_data (validate : String → Option SymbolInfo)
    (fetchHist : String → Option (List (Option ℝ))) (symbols : List String)
    (read_from_cache : Bool) (num_symbols : ℕ)
    (cache : Option (List SymbolData)) :
    Except CacheError (List SymbolData) × Option (List SymbolData) :=
  if read_from_cache then (load_cached_symbol_data cache, cache)
  else
    let r := get_and_cache_data validate fetchHist symbols num_symbols cache
    (Except.ok r.1, r.2)

/-- Issuer info used by the claim C5 example candidate `A`. -/
def exInfoA : SymbolInfo := [("symbol", "A")]

/-- Issuer info used by the claim C5 example candidate `C`. -/
def exInfoC : SymbolInfo := [("symbol", "C")]

/-- Example validator: `A` and `C` are valid, `B` is invalid. -/
def exValidate : String → Option SymbolInfo := fun s =>
  if s = "A" then some exInfoA else if s = "C" then some exInfoC else none

/-- Example fetcher: every validated candidate yields a two-point series. -/
def exFetch : String → Option (List (Option ℝ)) := fun _ =>
  some [some 1, some 1]

/-- The constant-series record used in witnesses. -/
def sdConst : SymbolData := ⟨[], [some 1, some 1], 0, 0⟩

/-! ### Helper lemmas about the regression core -/

theorem length_timeIndex (n : ℕ) : (timeIndex n).length = n := by
  rw [timeIndex, List.length_map, List.length_range]

theorem timeIndex_two : timeIndex 2 = [0, 1] := by
  simp [timeIndex, List.range_succ]

theorem meanOf_pair (a b : ℝ) : meanOf [a, b] = (a + b) / 2 := by
  simp [meanOf]

theorem olsSlope_pair (a b : ℝ) : olsSlope [a, b] = b - a := by
  simp only [olsSlope, List.length_cons, List.length_nil, Nat.zero_add,
    Nat.reduceAdd, timeIndex_two, List.zip_cons_cons, List.zip_nil_right,
    List.map_cons, List.map_nil, List.sum_cons, List.sum_nil, meanOf_pair]
  norm_num
  ring

theorem olsIntercept_pair (a b : ℝ) : olsIntercept [a, b] = a := by
  simp only [olsIntercept, List.length_cons, List.length_nil, Nat.zero_add,
    Nat.reduceAdd, timeIndex_two, meanOf_pair, olsSlope_pair]
  ring

theorem olsPred_pair (a b : ℝ) : olsPred [a, b] = [a, b] := by
  simp only [olsPred, List.length_cons, List.length_nil, Nat.zero_add,
    Nat.reduceAdd, timeIndex_two, List.map_cons, List.map_nil,
    olsSlope_pair, olsIntercept_pair]
  norm_num

theorem ssRes_pair (a b : ℝ) : ssRes [a, b] = 0 := by
  simp [ssRes, olsPred_pair]

theorem olsR2_pair (a b : ℝ) : olsR2 [a, b] = 1 := by
  simp [olsR2, ssRes_pair]

theorem zip_replicate_self {α β : Type} (l : List α) (y : β) :
    l.zip (List.replicate l.length y) = l.map (fun t => (t, y)) := by
  induction l with
  | nil => rfl
  | cons a t ih => simp [List.replicate_succ, ih]

theorem zip_replicate_len {α β : Type} (l : List α) (n : ℕ) (h : l.length = n)
    (y : β) : l.zip (List.replicate n y) = l.map (fun t => (t, y)) := by
  subst h
  exact zip_replicate_self l y

theorem meanOf_replicate (n : ℕ) (hn : n ≠ 0) (y : ℝ) :
    meanOf (List.replicate n y) = y := by
  rw [meanOf, List.sum_replicate, List.length_replicate, nsmul_eq_mul,
    mul_div_cancel_left₀ _ (Nat.cast_ne_zero.mpr hn)]

theorem olsSlope_replicate (n : ℕ) (hn : n ≠ 0) (y : ℝ) :
    olsSlope (List.replicate n y) = 0 := by
  simp only [olsSlope, List.length_replicate,
    zip_replicate_len (timeIndex n) n (length_timeIndex n) y, List.map_map,
    meanOf_replicate n hn y]
  have hz : ((timeIndex n).map
      ((fun p : ℝ × ℝ => (p.1 - meanOf (timeIndex n)) * (p.2 - y)) ∘
        fun t => (t, y))).sum = 0 := by
    apply List.sum_eq_zero
    intro x hx
    rcases List.mem_map.mp hx with ⟨t, _, rfl⟩
    simp
  rw [hz]
  split <;> simp

theorem olsIntercept_replicate (n : ℕ) (hn : n ≠ 0) (y : ℝ) :
    olsIntercept (List.replicate n y) = y := by
  rw [olsIntercept, List.length_replicate, meanOf_replicate n hn y,
    olsSlope_replicate n hn y, zero_mul, sub_zero]

theorem olsPred_replicate (n : ℕ) (hn : n ≠ 0) (y : ℝ) :
    olsPred (List.replicate n y) = List.replicate n y := by
  rw [olsPred, List.length_replicate, olsSlope_replicate n hn y,
    olsIntercept_replicate n hn y]
  have : ((timeIndex n).map (fun t => 0 * t + y)) =
      (timeIndex n).map (fun _ => y) := by
    apply List.map_congr_left
    intro t _
    ring
  rw [this, List.map_const', length_timeIndex]

theorem ssRes_replicate (n : ℕ) (hn : n ≠ 0) (y : ℝ) :
    ssRes (List.replicate n y) = 0 := by
  rw [ssRes, olsPred_replicate n hn y,
    zip_replicate_len _ n (List.length_replicate n y) y, List.map_map]
  apply List.sum_eq_zero
  intro x hx
  rcases List.mem_map.mp hx with ⟨t, ht, rfl⟩
  simp [List.eq_of_mem_replicate ht]

theorem olsR2_replicate (n : ℕ) (hn : n ≠ 0) (y : ℝ) :
    olsR2 (List.replicate n y) = 1 := by
  simp [olsR2, ssRes_replicate n hn y]

/-! ### Evaluation lemmas for determine_exp_trend -/

/-- On an accepted input (at least two cleaned points, all positive) the
analyzer reduces to the threshold-and-slope test on the log-linear fit. -/
theorem det_eval (data : List (Option ℝ)) (thr : ℝ)
    (h2 : 2 ≤ data.reduceOption.length)
    (hpos : ∀ p ∈ data.reduceOption, 0 < p) :
    determine_exp_trend data thr =
      (if thr ≤ olsR2 (logPrices data.reduceOption)
          ∧ 0 < olsSlope (logPrices data.reduceOption) then
        Except.ok (TrendOut.exponential (olsR2 (logPrices data.reduceOption))
          ((olsPred (logPrices data.reduceOption)).map Real.exp))
      else Except.ok TrendOut.notExponential) := by
  cases hl : data.reduceOption with
  | nil => rw [hl] at h2; simp at h2
  | cons a t =>
    rw [hl] at h2 hpos
    rw [determine_exp_trend]
    simp only [hl, List.isEmpty_cons, Bool.false_eq_true, if_false,
      not_not_intro hpos, ite_false, if_neg (not_not_intro hpos)]
    rw [r2score, if_neg (by simp only [logPrices, List.length_map]; omega)]

theorem det_error_empty (data : List (Option ℝ)) (thr : ℝ)
    (h : data.reduceOption = []) :
    determine_exp_trend data thr = Except.error FitError.emptyInput := by
  rw [determine_exp_trend]
  simp [h]

theorem det_error_nonpos (data : List (Option ℝ)) (thr : ℝ)
    (hne : data.reduceOption ≠ []) (hbad : ∃ p ∈ data.reduceOption, p ≤ 0) :
    determine_exp_trend data thr = Except.error FitError.nonFiniteInput := by
  rw [determine_exp_trend]
  have h1 : data.reduceOption.isEmpty = false := by
    simpa [List.isEmpty_iff] using hne
  have h2 : ¬ (∀ p ∈ data.reduceOption, 0 < p) := by
    rcases hbad with ⟨p, hp, hple⟩
    exact fun h => absurd (h p hp) (not_lt.mpr hple)
  simp only [h1, Bool.false_eq_true, if_false, if_pos h2]

theorem det_single (data : List (Option ℝ)) (thr : ℝ) (p : ℝ) (hp : 0 < p)
    (h1 : data.reduceOption = [p]) :
    determine_exp_trend data thr = Except.ok TrendOut.notExponential := by
  have hpos : ∀ q ∈ ([p] : List ℝ), 0 < q := by
    intro q hq
    rw [List.mem_singleton.mp hq]
    exact hp
  rw [determine_exp_trend]
  simp only [h1, List.isEmpty_cons, Bool.false_eq_true, if_false,
    if_neg (not_not_intro hpos)]
  rw [r2score, if_pos (by simp [logPrices])]

theorem det_pair (data : List (Option ℝ)) (thr : ℝ) (x y : ℝ)
    (hx : 0 < x) (hy : 0 < y) (hd : data.reduceOption = [x, y]) :
    determine_exp_trend data thr =
      (if thr ≤ 1 ∧ 0 < Real.log y - Real.log x then
        Except.ok (TrendOut.exponential 1 [x, y])
      else Except.ok TrendOut.notExponential) := by
  have hpos : ∀ q ∈ data.reduceOption, 0 < q := by
    rw [hd]
    intro q hq
    rcases List.mem_pair.mp hq with h | h <;> rw [h]
    · exact hx
    · exact hy
  rw [det_eval data thr (by rw [hd]; rfl) hpos, hd]
  have hlog : logPrices [x, y] = [Real.log x, Real.log y] := by
    simp [logPrices]
  rw [hlog, olsR2_pair, olsSlope_pair, olsPred_pair]
  have hexp : ([Real.log x, Real.log y].map Real.exp) = [x, y] := by
    simp [Real.exp_log hx, Real.exp_log hy]
  rw [hexp]

/-- A constant positive series of at least two points is never classified:
its fitted slope is `0`, so the `slope > 0` conjunct fails. -/
theorem det_replicate (data : List (Option ℝ)) (n : ℕ) (c thr : ℝ)
    (hdata : data.reduceOption = List.replicate n c) (h2 : 2 ≤ n)
    (hc : 0 < c) :
    determine_exp_trend data thr = Except.ok TrendOut.notExponential := by
  have hn : n ≠ 0 := by omega
  have hpos : ∀ q ∈ data.reduceOption, 0 < q := by
    rw [hdata]
    intro q hq
    rw [List.eq_of_mem_replicate hq]
    exact hc
  rw [det_eval data thr (by rw [hdata, List.length_replicate]; exact h2) hpos,
    hdata]
  have hlog : logPrices (List.replicate n c) =
      List.replicate n (Real.log c) := by
    simp [logPrices]
  have hcond : ¬ (thr ≤ olsR2 (List.replicate n (Real.log c))
      ∧ 0 < olsSlope (List.replicate n (Real.log c))) := by
    rw [olsSlope_replicate n hn (Real.log c)]
    simp
  rw [hlog, if_neg hcond]

/-! ### Helper lemmas about the analysis pass -/

theorem analyseOne_error (sd : SymbolData) (e : FitError)
    (h : determine_exp_trend sd.symbol_hist_data 0.8 = Except.error e) :
    analyseOne sd = Except.error e := by
  rw [analyseOne, h]

theorem analyseOne_notExponential (sd : SymbolData)
    (h : determine_exp_trend sd.symbol_hist_data 0.8 =
      Except.ok TrendOut.notExponential) :
    analyseOne sd = Except.ok sd := by
  rw [analyseOne, h]

theorem analyseOne_exponential (sd : SymbolData) (r2v : ℝ) (pred : List ℝ)
    (h : determine_exp_trend sd.symbol_hist_data 0.8 =
      Except.ok (TrendOut.exponential r2v pred)) :
    analyseOne sd = Except.ok { sd with r2 := r2v,
                                        cagr := determine_cagr sd.symbol_hist_data HIST_DATA_YEARS } := by
  rw [analyseOne, h]

theorem analyseOne_ok_cases (sd sd' : SymbolData)
    (h : analyseOne sd = Except.ok sd') :
    sd'.symbol_info = sd.symbol_info
      ∧ sd'.symbol_hist_data = sd.symbol_hist_data
      ∧ (determine_exp_trend sd.symbol_hist_data 0.8 =
          Except.ok TrendOut.notExponential → sd' = sd) := by
  rw [analyseOne] at h
  cases hdet : determine_exp_trend sd.symbol_hist_data 0.8 with
  | error e =>
    rw [hdet] at h
    exact absurd h (by simp)
  | ok t =>
    rw [hdet] at h
    cases t with
    | exponential r p =>
      injection h with h
      subst h
      refine ⟨rfl, rfl, fun habs => ?_⟩
      simp at habs
    | notExponential =>
      injection h with h
      subst h
      exact ⟨rfl, rfl, fun _ => rfl⟩

theorem analyse_symbols_cons (sd : SymbolData) (rest : List SymbolData) :
    analyse_symbols (sd :: rest) =
      match analyseOne sd with
      | Except.error e => Except.error e
      | Except.ok sd' =>
        match analyse_symbols rest with
        | Except.error e => Except.error e
        | Except.ok rest' => Except.ok (sd' :: rest') := by
  rw [analyse_symbols]

/-! ### Helper lemmas about the orchestration loop -/

/-- The scan with success counter `i` and target `n` collects the usable
candidates, truncated to the `n - i` still wanted. -/
theorem scanLoop_eq_take (validate : String → Option SymbolInfo)
    (fetchHist : String → Option (List (Option ℝ))) :
    ∀ (symbols : List String) (i n : ℕ), i ≤ n →
      scanLoop validate fetchHist symbols i n =
        (symbols.filterMap (usableRecord validate fetchHist)).take (n - i) := by
  intro symbols
  induction symbols with
  | nil =>
    intro i n _
    simp [scanLoop]
  | cons s rest ih =>
    intro i n hin
    by_cases hi : i = n
    · subst hi
      simp [scanLoop, Nat.sub_self]
    · have hlt : i < n := lt_of_le_of_ne hin hi
      rw [scanLoop, if_neg hi, List.filterMap_cons]
      cases hv : validate s with
      | none =>
        simp only [usableRecord, hv]
        exact ih i n hin
      | some info =>
        cases hf : fetchHist s with
        | none =>
          simp only [usableRecord, hv, hf]
          exact ih i n hin
        | some hist =>
          simp only [usableRecord, hv, hf]
          have hsub : n - i = (n - (i + 1)) + 1 := by omega
          rw [hsub, List.take_succ_cons]
          exact congrArg _ (ih (i + 1) n (by omega))

theorem get_and_cache_fst (validate : String → Option SymbolInfo)
    (fetchHist : String → Option (List (Option ℝ))) (symbols : List String)
    (n : ℕ) (cache : Option (List SymbolData)) :
    (get_and_cache_data validate fetchHist symbols n cache).1 =
      (symbols.filterMap (usableRecord validate fetchHist)).take n := by
  rw [get_and_cache_data]
  exact (scanLoop_eq_take validate fetchHist symbols 0 n (Nat.zero_le n)).trans
    (by rw [Nat.sub_zero])

/-! ### Concrete evaluations -/

/-- The exactly exponential two-point series `[1, e]` is classified: its
log-linear fit is perfect (`R² = 1`) with slope `1`. -/
theorem helper_exp_pair :
    determine_exp_trend [some 1, some (Real.exp 1)] 0.8 =
      Except.ok (TrendOut.exponential 1 [1, Real.exp 1]) := by
  rw [det_pair [some 1, some (Real.exp 1)] 0.8 1 (Real.exp 1) one_pos
    (Real.exp_pos 1) (by simp)]
  rw [if_pos]
  constructor
  · norm_num
  · rw [Real.log_exp, Real.log_one]
    norm_num

/-- The constant two-point series `[1, 1]` is not classified: slope `0`. -/
theorem helper_const_pair :
    determine_exp_trend [some 1, some 1] 0.8 =
      Except.ok TrendOut.notExponential := by
  rw [det_pair [some 1, some 1] 0.8 1 1 one_pos one_pos (by simp)]
  rw [if_neg]
  rintro ⟨-, h⟩
  simp at h

theorem helper_analyse_const :
    analyse_symbols [sdConst] = Except.ok [sdConst] := by
  rw [analyse_symbols_cons, analyseOne_notExponential sdConst helper_const_pair]
  rfl

/-! ### Claims -/

/-- Claim C1: for every price series accepted by the Trend Analyzer (at least
two cleaned points, all prices positive), the analyzer succeeds and classifies
the series exponential exactly when the coefficient of determination of the
log-linear fit is at least the threshold and the fitted slope is strictly
positive; in particular a slope `≤ 0` is never classified exponential. -/
theorem claim1_classification_rule (data : List (Option ℝ)) (thr : ℝ)
    (h2 : 2 ≤ data.reduceOption.length)
    (hpos : ∀ p ∈ data.reduceOption, 0 < p) :
    (determine_exp_trend data thr =
        Except.ok (TrendOut.exponential (olsR2 (logPrices data.reduceOption))
          ((olsPred (logPrices data.reduceOption)).map Real.exp))
      ↔ thr ≤ olsR2 (logPrices data.reduceOption)
          ∧ 0 < olsSlope (logPrices data.reduceOption))
    ∧ (olsSlope (logPrices data.reduceOption) ≤ 0 →
        determine_exp_trend data thr = Except.ok TrendOut.notExponential) := by
  rw [det_eval data thr h2 hpos]
  by_cases hc : thr ≤ olsR2 (logPrices data.reduceOption)
      ∧ 0 < olsSlope (logPrices data.reduceOption)
  · rw [if_pos hc]
    exact ⟨iff_of_true rfl hc,
      fun hs => absurd hc.2 (not_lt.mpr hs)⟩
  · rw [if_neg hc]
    refine ⟨⟨fun h => absurd h (by simp), fun h => absurd h hc⟩, fun _ => rfl⟩

/-- Claim C1 witness at the accepted two-point series `[1, e]`. -/
theorem claim1_witness :
    (determine_exp_trend [some 1, some (Real.exp 1)] 0.8 =
        Except.ok (TrendOut.exponential
          (olsR2 (logPrices
            ([some 1, some (Real.exp 1)] : List (Option ℝ)).reduceOption))
          ((olsPred (logPrices
            ([some 1, some (Real.exp 1)] :
              List (Option ℝ)).reduceOption)).map Real.exp))
      ↔ 0.8 ≤ olsR2 (logPrices
            ([some 1, some (Real.exp 1)] : List (Option ℝ)).reduceOption)
          ∧ 0 < olsSlope (logPrices
            ([some 1, some (Real.exp 1)] : List (Option ℝ)).reduceOption))
    ∧ (olsSlope (logPrices
          ([some 1, some (Real.exp 1)] : List (Option ℝ)).reduceOption) ≤ 0 →
        determine_exp_trend [some 1, some (Real.exp 1)] 0.8 =
          Except.ok TrendOut.notExponential) :=
  claim1_classification_rule [some 1, some (Real.exp 1)] 0.8 (by simp)
    (by intro p hp
        simp only [List.reduceOption_cons_of_some, List.reduceOption_nil] at hp
        rcases List.mem_pair.mp hp with h | h <;> rw [h]
        · exact one_pos
        · exact Real.exp_pos 1)

/-- Claim C2 counterexample: a series whose single observation is missing has
zero points after `dropna`; the regression fit raises an unhandled error
(`ValueError` on an empty sample, modeled `FitError.emptyInput`) instead of a
handled `InsufficientData` outcome, and the analysis pass over a batch holding
that record aborts instead of keeping the record. -/
theorem claim2_counterexample :
    determine_exp_trend [(none : Option ℝ)] 0.8 =
        Except.error FitError.emptyInput
    ∧ analyse_symbols [⟨[], [(none : Option ℝ)], 0, 0⟩] =
        Except.error FitError.emptyInput := by
  have h : determine_exp_trend [(none : Option ℝ)] 0.8 =
      Except.error FitError.emptyInput := det_error_empty [none] 0.8 (by simp)
  refine ⟨h, ?_⟩
  rw [analyse_symbols_cons, analyseOne_error _ FitError.emptyInput h]

/-- Claim C2 amended: after dropping missing observations, a series with zero
remaining points makes the fit raise an unhandled error that aborts the
analysis pass (there is no `InsufficientData` outcome); a series with exactly
one remaining positive point yields an unclassified success (the R² score is
`NaN`, so the threshold comparison fails) and the record is kept in the batch
with its trend fields untouched. -/
theorem claim2_amended (data : List (Option ℝ)) (thr : ℝ) :
    (data.reduceOption = [] →
      determine_exp_trend data thr = Except.error FitError.emptyInput)
    ∧ (∀ p : ℝ, data.reduceOption = [p] → 0 < p →
        determine_exp_trend data thr = Except.ok TrendOut.notExponential)
    ∧ (∀ (info : SymbolInfo) (r cg p : ℝ), data.reduceOption = [p] → 0 < p →
        analyse_symbols [⟨info, data, r, cg⟩] =
          Except.ok [⟨info, data, r, cg⟩]) := by
  refine ⟨det_error_empty data thr,
    fun p h1 hp => det_single data thr p hp h1, ?_⟩
  intro info r cg p h1 hp
  rw [analyse_symbols_cons,
    analyseOne_notExponential _ (det_single data 0.8 p hp h1)]
  rfl

/-- Claim C2 witness: the zero-point and one-point cases at concrete data. -/
theorem claim2_witness :
    determine_exp_trend [(none : Option ℝ)] 1 = Except.error FitError.emptyInput
    ∧ determine_exp_trend [some (2 : ℝ)] 1 = Except.ok TrendOut.notExponential
    ∧ analyse_symbols [⟨[], [some (2 : ℝ)], 0, 0⟩] =
        Except.ok [⟨[], [some (2 : ℝ)], 0, 0⟩] :=
  ⟨(claim2_amended [none] 1).1 (by simp),
    (claim2_amended [some 2] 1).2.1 2 (by simp) (by norm_num),
    (claim2_amended [some 2] 1).2.2 [] 0 0 2 (by simp) (by norm_num)⟩

/-- Claim C3 counterexample: a series containing the price `0` reaches the
log transform, which produces a non-finite value, and the fit then raises an
unhandled error (modeled `FitError.nonFiniteInput`); there is no
`InvalidPriceData` outcome, and the analysis pass over a batch holding that
record aborts instead of keeping the record unclassified. -/
theorem claim3_counterexample :
    determine_exp_trend [some (0 : ℝ), some 1] 0.8 =
        Except.error FitError.nonFiniteInput
    ∧ analyse_symbols [⟨[], [some (0 : ℝ), some 1], 0, 0⟩] =
        Except.error FitError.nonFiniteInput := by
  have h : determine_exp_trend [some (0 : ℝ), some 1] 0.8 =
      Except.error FitError.nonFiniteInput :=
    det_error_nonpos _ _ (by simp) ⟨0, by simp, le_refl 0⟩
  refine ⟨h, ?_⟩
  rw [analyse_symbols_cons, analyseOne_error _ FitError.nonFiniteInput h]

/-- Claim C3 amended: a nonempty cleaned series containing a price `≤ 0`
makes the log transform produce a non-finite value and the fit raise an
unhandled error, and a batch whose record holds such a series makes the whole
analysis pass abort (the record is not kept with unclassified trend
fields). -/
theorem claim3_amended (data : List (Option ℝ)) (thr : ℝ)
    (hne : data.reduceOption ≠ [])
    (hbad : ∃ p ∈ data.reduceOption, p ≤ 0) :
    determine_exp_trend data thr = Except.error FitError.nonFiniteInput
    ∧ (∀ (info : SymbolInfo) (r cg : ℝ) (rest : List SymbolData),
        analyse_symbols (⟨info, data, r, cg⟩ :: rest) =
          Except.error FitError.nonFiniteInput) := by
  refine ⟨det_error_nonpos data thr hne hbad, ?_⟩
  intro info r cg rest
  rw [analyse_symbols_cons,
    analyseOne_error _ FitError.nonFiniteInput
      (det_error_nonpos data 0.8 hne hbad)]

/-- Claim C3 witness: a concrete negative price aborts the pass. -/
theorem claim3_witness :
    determine_exp_trend [some (-1 : ℝ), some 2] 1 =
        Except.error FitError.nonFiniteInput
    ∧ analyse_symbols [⟨[], [some (-1 : ℝ), some 2], 0, 0⟩] =
        Except.error FitError.nonFiniteInput := by
  have h := claim3_amended [some (-1 : ℝ), some 2] 1 (by simp)
    ⟨-1, by simp, by norm_num⟩
  exact ⟨h.1, h.2 [] 0 0 []⟩

/-- Claim C4: the batch returned by the orchestrator holds exactly
`min targetCount usable` records, where `usable` counts the candidates that
validate and fetch successfully, and in particular never more than the
target. -/
theorem claim4_batch_size (validate : String → Option SymbolInfo)
    (fetchHist : String → Option (List (Option ℝ))) (symbols : List String)
    (num_symbols : ℕ) (cache : Option (List SymbolData)) :
    ((get_and_cache_data validate fetchHist symbols num_symbols cache).1).length
        = min num_symbols
            (symbols.filterMap (usableRecord validate fetchHist)).length
    ∧ ((get_and_cache_data validate fetchHist symbols num_symbols
          cache).1).length ≤ num_symbols := by
  rw [get_and_cache_fst, List.length_take]
  exact ⟨rfl, Nat.min_le_left _ _⟩

/-- Claim C5: one candidate's validation or fetch failure never blocks later
candidates: the output batch is exactly the usable candidates in source
order, truncated at the target count; concretely, for candidates `A` (valid),
`B` (invalid), `C` (valid) and target `2` the output is `[A, C]`. -/
theorem claim5_failure_isolation (validate : String → Option SymbolInfo)
    (fetchHist : String → Option (List (Option ℝ))) (symbols : List String)
    (num_symbols : ℕ) (cache : Option (List SymbolData)) :
    (get_and_cache_data validate fetchHist symbols num_symbols cache).1
        = (symbols.filterMap (usableRecord validate fetchHist)).take num_symbols
    ∧ (get_and_cache_data exValidate exFetch ["A", "B", "C"] 2 none).1
        = [⟨exInfoA, [some 1, some 1], 0, 0⟩,
           ⟨exInfoC, [some 1, some 1], 0, 0⟩] := by
  refine ⟨get_and_cache_fst validate fetchHist symbols num_symbols cache, ?_⟩
  rfl

/-- Claim C6 counterexample: for the constant series `[1, 1]` the R² computed
by the code (sklearn's convention, both sums of squares being zero) is `1`,
not the claimed `0`, and the analyzer returns the unclassified outcome, which
carries no R² value at all. -/
theorem claim6_counterexample :
    olsR2 (logPrices [(1 : ℝ), 1]) = 1 ∧ (1 : ℝ) ≠ 0
    ∧ determine_exp_trend [some 1, some 1] 0.8 =
        Except.ok TrendOut.notExponential := by
  refine ⟨?_, one_ne_zero, helper_const_pair⟩
  simp only [logPrices, List.map_cons, List.map_nil]
  exact olsR2_pair _ _

/-- Claim C6 amended: for every constant positive series of at least two
points, the fitted slope is `0` and the series is not classified exponential;
the internally computed R² is `1` under sklearn's zero-variance convention
(not `0` and not `NaN`), the unclassified return carries no R² value, and the
analysis pass leaves such a record entirely unchanged (its `r2` field keeps
its default). -/
theorem claim6_constant_series (data : List (Option ℝ)) (n : ℕ) (c thr : ℝ)
    (hdata : data.reduceOption = List.replicate n c) (h2 : 2 ≤ n)
    (hc : 0 < c) :
    olsSlope (logPrices (List.replicate n c)) = 0
    ∧ determine_exp_trend data thr = Except.ok TrendOut.notExponential
    ∧ olsR2 (logPrices (List.replicate n c)) = 1
    ∧ (∀ (info : SymbolInfo) (r cg : ℝ),
        analyse_symbols [⟨info, data, r, cg⟩] =
          Except.ok [⟨info, data, r, cg⟩]) := by
  have hn : n ≠ 0 := by omega
  have hlog : logPrices (List.replicate n c) =
      List.replicate n (Real.log c) := by
    simp [logPrices]
  rw [hlog]
  refine ⟨olsSlope_replicate n hn _, det_replicate data n c thr hdata h2 hc,
    olsR2_replicate n hn _, ?_⟩
  intro info r cg
  rw [analyse_symbols_cons,
    analyseOne_notExponential _ (det_replicate data n c 0.8 hdata h2 hc)]
  rfl

/-- Claim C6 witness at the concrete constant series `[1, 1]`. -/
theorem claim6_witness :
    olsSlope (logPrices (List.replicate 2 (1 : ℝ))) = 0
    ∧ determine_exp_trend [some 1, some 1] 0.9 =
        Except.ok TrendOut.notExponential
    ∧ olsR2 (logPrices (List.replicate 2 (1 : ℝ))) = 1
    ∧ (∀ (info : SymbolInfo) (r cg : ℝ),
        analyse_symbols [⟨info, [some 1, some 1], r, cg⟩] =
          Except.ok [⟨info, [some 1, some 1], r, cg⟩]) :=
  claim6_constant_series [some 1, some 1] 2 1 0.9 rfl (by norm_num) one_pos

/-- Claim C7: the growth rate attached by the analysis pass is
`determine_cagr` at the fixed configured lookback `HIST_DATA_YEARS` (never
derived from the series length), it is attached exactly to the records
classified exponential (unclassified records are returned unchanged), the
formula evaluates to `(final/initial)^(1/years) - 1` on the series' first and
last observed prices, and on the spec's example (initial `100`, final
`100·1.1^5`, five years) it equals `0.1` — in particular within `1e-9` of
`0.1`. -/
theorem claim7_cagr (sd : SymbolData) (r2v : ℝ) (pred : List ℝ)
    (hclass : determine_exp_trend sd.symbol_hist_data 0.8 =
      Except.ok (TrendOut.exponential r2v pred)) :
    analyseOne sd = Except.ok { sd with r2 := r2v,
                                        cagr := determine_cagr sd.symbol_hist_data HIST_DATA_YEARS }
    ∧ (∀ sd' : SymbolData,
        determine_exp_trend sd'.symbol_hist_data 0.8 =
          Except.ok TrendOut.notExponential →
        analyseOne sd' = Except.ok sd')
    ∧ (∀ (i f : ℝ) (mid : List (Option ℝ)) (years : ℝ),
        determine_cagr (some i :: (mid ++ [some f])) years =
          (f / i) ^ ((1 : ℝ) / years) - 1)
    ∧ determine_cagr [some 100, some (100 * (1.1 : ℝ) ^ 5)] HIST_DATA_YEARS
        = 0.1
    ∧ |determine_cagr [some 100, some (100 * (1.1 : ℝ) ^ 5)] HIST_DATA_YEARS
        - 0.1| ≤ 1e-9 := by
  have hform : ∀ (i f : ℝ) (mid : List (Option ℝ)) (years : ℝ),
      determine_cagr (some i :: (mid ++ [some f])) years =
        (f / i) ^ ((1 : ℝ) / years) - 1 := by
    intro i f mid years
    rw [determine_cagr]
    rw [show (some i :: (mid ++ [some f])) =
      ((some i :: mid) ++ [some f]) from rfl]
    rw [List.getLast?_concat]
    simp
  have hex : determine_cagr [some 100, some (100 * (1.1 : ℝ) ^ 5)]
      HIST_DATA_YEARS = 0.1 := by
    have h1 := hform 100 (100 * (1.1 : ℝ) ^ 5) [] HIST_DATA_YEARS
    simp only [List.nil_append] at h1
    rw [h1]
    have h2 : (100 * (1.1 : ℝ) ^ 5) / 100 = (1.1 : ℝ) ^ (5 : ℕ) := by
      ring
    rw [h2, HIST_DATA_YEARS]
    rw [← Real.rpow_natCast (1.1 : ℝ) 5,
      ← Real.rpow_mul (by norm_num : (0 : ℝ) ≤ 1.1)]
    rw [show ((5 : ℕ) : ℝ) * ((1 : ℝ) / 5) = 1 by norm_num, Real.rpow_one]
    norm_num
  refine ⟨analyseOne_exponential sd r2v pred hclass,
    fun sd' h => analyseOne_notExponential sd' h, hform, hex, ?_⟩
  rw [hex]
  norm_num

/-- Claim C7 witness: the pass attaches `r2 = 1` and the configured-window
CAGR to the classified record over `[1, e]`. -/
theorem claim7_witness :
    analyseOne ⟨[], [some 1, some (Real.exp 1)], 0, 0⟩ =
      Except.ok ⟨[], [some 1, some (Real.exp 1)], 1,
        determine_cagr [some 1, some (Real.exp 1)] HIST_DATA_YEARS⟩ :=
  (claim7_cagr ⟨[], [some 1, some (Real.exp 1)], 0, 0⟩ 1 [1, Real.exp 1]
    helper_exp_pair).1

/-- Claim C8: saving a batch and loading it back returns the same batch, and
the saved content does not depend on what the cache held before (save
overwrites). -/
theorem claim8_roundtrip (batch : List SymbolData)
    (c c' : Option (List SymbolData)) :
    load_cached_symbol_data (cache_symbol_data batch c) = Except.ok batch
    ∧ cache_symbol_data batch c = cache_symbol_data batch c' :=
  ⟨rfl, rfl⟩

/-- Claim C9: on the cache-read path `get_symbol_data` returns exactly the
loaded cache and the unchanged cache artifact, independently of
`num_symbols`, of the candidate source, and of the provider oracles (so no
provider call can influence the result). -/
theorem claim9_cache_read (validate validate' : String → Option SymbolInfo)
    (fetchHist fetchHist' : String → Option (List (Option ℝ)))
    (symbols symbols' : List String) (n n' : ℕ)
    (cache : Option (List SymbolData)) :
    get_symbol_data validate fetchHist symbols true n cache
        = (load_cached_symbol_data cache, cache)
    ∧ get_symbol_data validate fetchHist symbols true n cache
        = get_symbol_data validate' fetchHist' symbols' true n' cache :=
  ⟨rfl, rfl⟩

/-- Claim C10: a completed analysis pass preserves the batch's length and
order, never touches `symbol_info` or `symbol_hist_data`, and returns every
record not classified exponential entirely unchanged. -/
theorem claim10_frame (l l' : List SymbolData)
    (h : analyse_symbols l = Except.ok l') :
    List.Forall₂ (fun a b =>
      b.symbol_info = a.symbol_info
        ∧ b.symbol_hist_data = a.symbol_hist_data
        ∧ (determine_exp_trend a.symbol_hist_data 0.8 =
            Except.ok TrendOut.notExponential → b = a)) l l' := by
  induction l generalizing l' with
  | nil =>
    rw [analyse_symbols] at h
    injection h with h
    subst h
    exact List.Forall₂.nil
  | cons sd rest ih =>
    rw [analyse_symbols_cons] at h
    cases h1 : analyseOne sd with
    | error e =>
      rw [h1] at h
      exact absurd h (by simp)
    | ok sd' =>
      rw [h1] at h
      cases h2 : analyse_symbols rest with
      | error e =>
        rw [h2] at h
        exact absurd h (by simp)
      | ok rest' =>
        rw [h2] at h
        injection h with h
        subst h
        have hc := analyseOne_ok_cases sd sd' h1
        exact List.Forall₂.cons ⟨hc.1, hc.2.1, hc.2.2⟩ (ih rest' h2)

/-- Claim C10 witness on the singleton batch holding the constant record. -/
theorem claim10_witness :
    List.Forall₂ (fun a b =>
      b.symbol_info = a.symbol_info
        ∧ b.symbol_hist_data = a.symbol_hist_data
        ∧ (determine_exp_trend a.symbol_hist_data 0.8 =
            Except.ok TrendOut.notExponential → b = a))
      [sdConst] [sdConst] :=
  claim10_frame [sdConst] [sdConst] helper_analyse_const

end StockAnalysis
